import Mathlib

/-!
# Verification of the finity-auth-starter RBAC guards and profile service

Shallow embedding of `backend/app/core/deps.py` and
`backend/app/routes/users.py`. The User Directory (the database) is a list
of user records; a request-scoped session commits at the end of a handler,
and a raised `HTTPException` aborts the handler before `db.commit()`, so the
persistent directory is unchanged on any error.
-/

namespace FinityAuth

/-- The fixed, closed role enumeration {USER, ADMIN}.
Modelled from the spec: `app/models/user.py` is not among the sources; the
spec fixes the closed set {USER, ADMIN}, and the diagnostic script
(`run_audit.py`) compares `user.role.value` against the strings "admin" and
"user", which gives the enumeration's string values. -/
inductive UserRole where
  | USER
  | ADMIN
deriving DecidableEq, Repr

/-- The string value of a role member (Python `required_role.value`). -/
def UserRole.value : UserRole → String
  | .USER => "user"
  | .ADMIN => "admin"

/-- One record of the User Directory (the `User` model of the spec's data
model: `app/models/user.py` is not among the sources; fields follow §3 of
the spec, with `full_name` nullable and `hashed_password` absent for
OAuth-only accounts). -/
structure User where
  id : Nat
  email : String
  username : String
  full_name : Option String
  hashed_password : Option String
  role : UserRole
  is_active : Bool
  is_verified : Bool
deriving DecidableEq, Repr

/-- A FastAPI `HTTPException`, as raised by the guards and the profile
routes: a status code plus a detail string. -/
structure HTTPError where
  status_code : Nat
  detail : String
deriving DecidableEq, Repr

/-! ## RBAC guards (`app/core/deps.py`) -/

/-- The inner `role_checker` closure produced by the guard factory
`require_role(required_role)` in `app/core/deps.py`: given the resolved
identity, raise 403 when the role differs, otherwise pass the identity
through unchanged. -/
def role_checker (required_role : UserRole) (current_user : User) :
    Except HTTPError User :=
  if current_user.role ≠ required_role then
    .error ⟨403, "Access denied. Required role: " ++ required_role.value⟩
  else
    .ok current_user

/-- `require_admin` in `app/core/deps.py`: a separate code path that raises
403 with its own detail string when the resolved identity is not an admin. -/
def require_admin (current_user : User) : Except HTTPError User :=
  if current_user.role ≠ UserRole.ADMIN then
    .error ⟨403, "Access denied. Admin role required."⟩
  else
    .ok current_user

/-! ## Profile service (`app/routes/users.py`) -/

/-- The parsed `UserUpdate` body as the route handler sees it: each of the
three attributes is an optional string, `none` when the parsed field is
Python `None`. -/
structure UserUpdate where
  email : Option String
  username : Option String
  full_name : Option String
deriving DecidableEq, Repr

/-- Modelled from the spec: Pydantic parsing of the self-update request body
into the `UserUpdate` schema (`app/schemas/user.py` is not among the
sources; the spec describes a partial update with zero or more of
{email, username, full_name}). A request field is `none` when omitted,
`some none` when explicitly null, `some (some s)` when it is the string `s`;
each schema field is declared optional with default null, so an omitted
field and an explicitly null field both parse to the attribute `none`. -/
structure UpdateRequest where
  email : Option (Option String)
  username : Option (Option String)
  full_name : Option (Option String)
deriving DecidableEq, Repr

/-- Parsing an update request into the attribute values the handler reads. -/
def parseUpdate (r : UpdateRequest) : UserUpdate :=
  { email := r.email.join
    username := r.username.join
    full_name := r.full_name.join }

/-- First block of `update_user_profile`:
`if user_update.email and user_update.email != current_user.email:` followed
by the directory lookup and either the 400 "Email already registered" raise
or the assignment `current_user.email = user_update.email`. Python
truthiness makes `None` and `""` skip the block. -/
def emailStep (upd : UserUpdate) (current_user : User) (db : List User) :
    Except HTTPError User :=
  match upd.email with
  | some e =>
    if e ≠ "" ∧ e ≠ current_user.email then
      match db.find? (fun u => u.email == e) with
      | some _ => .error ⟨400, "Email already registered"⟩
      | none => .ok { current_user with email := e }
    else .ok current_user
  | none => .ok current_user

/-- Second block of `update_user_profile`: the analogous username check,
raising 400 "Username already taken" on a conflict, otherwise assigning
`current_user.username`. -/
def usernameStep (upd : UserUpdate) (current_user : User) (db : List User) :
    Except HTTPError User :=
  match upd.username with
  | some un =>
    if un ≠ "" ∧ un ≠ current_user.username then
      match db.find? (fun u => u.username == un) with
      | some _ => .error ⟨400, "Username already taken"⟩
      | none => .ok { current_user with username := un }
    else .ok current_user
  | none => .ok current_user

/-- Third block of `update_user_profile`:
`if user_update.full_name is not None: current_user.full_name = user_update.full_name`. -/
def fullNameStep (upd : UserUpdate) (current_user : User) : User :=
  match upd.full_name with
  | some fn => { current_user with full_name := some fn }
  | none => current_user

/-- `db.commit()` at the end of the handler: the session's mutations to the
caller's record are written to the directory (the record is keyed by its
immutable id). -/
def commitUser (u : User) (db : List User) : List User :=
  db.map (fun v => if v.id == u.id then u else v)

/-- The handler `update_user_profile` of `app/routes/users.py`: email check
block, then username check block, then the full-name assignment, then
`db.commit()`; a raised `HTTPException` aborts before the commit. Returns
the refreshed record and the committed directory on success. -/
def update_user_profile (upd : UserUpdate) (current_user : User)
    (db : List User) : Except HTTPError (User × List User) :=
  match emailStep upd current_user db with
  | .error err => .error err
  | .ok cu1 =>
    match usernameStep upd cu1 db with
    | .error err => .error err
    | .ok cu2 =>
      let cu3 := fullNameStep upd cu2
      .ok (cu3, commitUser cu3 db)

/-- The directory after the whole request: on success the committed
directory; on a raised `HTTPException` the request-scoped session is closed
without `db.commit()`, so every uncommitted mutation is discarded and the
directory is unchanged. -/
def dbAfterUpdateRequest (upd : UserUpdate) (current_user : User)
    (db : List User) : List User :=
  match update_user_profile upd current_user db with
  | .ok (_, db2) => db2
  | .error _ => db

/-- The handler `delete_user_account`: `db.delete(current_user)` then
`db.commit()`, returning `None` under status 204 No Content. The result is
the status code, the (empty) response content, and the directory after the
commit. -/
def delete_user_account (current_user : User) (db : List User) :
    Nat × Option User × List User :=
  (204, none, db.filter (fun u => u.id != current_user.id))

/-- The four counts returned by the admin statistics handler. -/
structure AdminStats where
  total_users : Nat
  active_users : Nat
  verified_users : Nat
  admin_users : Nat
deriving DecidableEq, Repr

/-- The handler `get_admin_stats`: four independent counting queries over
the directory. -/
def get_admin_stats (db : List User) : AdminStats :=
  { total_users := db.length
    active_users := (db.filter (fun u => u.is_active)).length
    verified_users := (db.filter (fun u => u.is_verified)).length
    admin_users := (db.filter (fun u => u.role == UserRole.ADMIN)).length }

/-- Count of directory records holding a given role. -/
def countRole (db : List User) (r : UserRole) : Nat :=
  (db.filter (fun u => u.role == r)).length

/-! ## Concrete directory states used to instantiate the theorems -/

/-- A regular user whose profile is fully populated. -/
def alice : User :=
  ⟨1, "a@x.com", "alice", some "Old Name", some "pw", .USER, true, true⟩

/-- An admin user. -/
def bob : User :=
  ⟨2, "b@x.com", "bob", none, some "pw2", .ADMIN, true, false⟩

/-- The two-user directory of the spec's example scenario. -/
def dbAB : List User := [alice, bob]

/-- Alice after a successful update to a fresh email, a fresh username and a
new full name. -/
def aliceUpdated : User :=
  ⟨1, "c@x.com", "carol", some "New", some "pw", .USER, true, true⟩

/-- The directory after committing `aliceUpdated`. -/
def dbUpdated : List User := [aliceUpdated, bob]

/-! ## Helper lemmas about the three update blocks -/

/-- An update without an email field leaves the email block inert. -/
theorem emailStep_omitted (upd : UserUpdate) (cu : User) (db : List User)
    (h : upd.email = none) : emailStep upd cu db = Except.ok cu := by
  unfold emailStep; rw [h]

/-- A falsy (empty) or unchanged email value skips the email block. -/
theorem emailStep_skip (upd : UserUpdate) (cu : User) (db : List User)
    (e : String) (he : upd.email = some e) (h : e = "" ∨ e = cu.email) :
    emailStep upd cu db = Except.ok cu := by
  rcases h with rfl | rfl <;> simp [emailStep, he]

/-- A truthy, changed and unheld email value is written to the record. -/
theorem emailStep_applies (upd : UserUpdate) (cu : User) (db : List User)
    (e : String) (he : upd.email = some e) (h1 : e ≠ "") (h2 : e ≠ cu.email)
    (hf : db.find? (fun u => u.email == e) = none) :
    emailStep upd cu db = Except.ok { cu with email := e } := by
  simp [emailStep, he, h1, h2, hf]

/-- A truthy, changed email held by some record raises the 400 conflict. -/
theorem emailStep_conflict (upd : UserUpdate) (cu : User) (db : List User)
    (e : String) (v : User) (he : upd.email = some e) (h1 : e ≠ "")
    (h2 : e ≠ cu.email) (hf : db.find? (fun u => u.email == e) = some v) :
    emailStep upd cu db = Except.error ⟨400, "Email already registered"⟩ := by
  simp [emailStep, he, h1, h2, hf]

/-- Inversion: a successful email block either left the record alone or wrote
exactly the supplied email. -/
theorem emailStep_ok_cases (upd : UserUpdate) (cu : User) (db : List User)
    (cu1 : User) (h : emailStep upd cu db = Except.ok cu1) :
    cu1 = cu ∨ ∃ e, upd.email = some e ∧ e ≠ "" ∧ e ≠ cu.email ∧
      db.find? (fun u => u.email == e) = none ∧ cu1 = { cu with email := e } := by
  unfold emailStep at h
  cases hue : upd.email with
  | none => rw [hue] at h; dsimp only at h; exact Or.inl (Except.ok.inj h).symm
  | some e =>
    rw [hue] at h; dsimp only at h
    by_cases hc : e ≠ "" ∧ e ≠ cu.email
    · rw [if_pos hc] at h
      cases hf : db.find? (fun u => u.email == e) with
      | none => rw [hf] at h; exact Or.inr ⟨e, rfl, hc.1, hc.2, hf, (Except.ok.inj h).symm⟩
      | some v => rw [hf] at h; exact absurd h (by simp)
    · rw [if_neg hc] at h; exact Or.inl (Except.ok.inj h).symm

/-- A successful email block changes no field but possibly the email. -/
theorem emailStep_frame (upd : UserUpdate) (cu : User) (db : List User)
    (cu1 : User) (h : emailStep upd cu db = Except.ok cu1) :
    cu1.id = cu.id ∧ cu1.username = cu.username ∧ cu1.full_name = cu.full_name ∧
    cu1.hashed_password = cu.hashed_password ∧ cu1.role = cu.role ∧
    cu1.is_active = cu.is_active ∧ cu1.is_verified = cu.is_verified := by
  rcases emailStep_ok_cases upd cu db cu1 h with rfl | ⟨e, _, _, _, _, rfl⟩ <;> simp

/-- An update without a username field leaves the username block inert. -/
theorem usernameStep_omitted (upd : UserUpdate) (cu : User) (db : List User)
    (h : upd.username = none) : usernameStep upd cu db = Except.ok cu := by
  unfold usernameStep; rw [h]

/-- A falsy (empty) or unchanged username value skips the username block. -/
theorem usernameStep_skip (upd : UserUpdate) (cu : User) (db : List User)
    (un : String) (hu : upd.username = some un) (h : un = "" ∨ un = cu.username) :
    usernameStep upd cu db = Except.ok cu := by
  rcases h with rfl | rfl <;> simp [usernameStep, hu]

/-- A truthy, changed and unheld username value is written to the record. -/
theorem usernameStep_applies (upd : UserUpdate) (cu : User) (db : List User)
    (un : String) (hu : upd.username = some un) (h1 : un ≠ "")
    (h2 : un ≠ cu.username) (hf : db.find? (fun u => u.username == un) = none) :
    usernameStep upd cu db = Except.ok { cu with username := un } := by
  simp [usernameStep, hu, h1, h2, hf]

/-- A truthy, changed username held by some record raises the 400 conflict. -/
theorem usernameStep_conflict (upd : UserUpdate) (cu : User) (db : List User)
    (un : String) (v : User) (hu : upd.username = some un) (h1 : un ≠ "")
    (h2 : un ≠ cu.username) (hf : db.find? (fun u => u.username == un) = some v) :
    usernameStep upd cu db = Except.error ⟨400, "Username already taken"⟩ := by
  simp [usernameStep, hu, h1, h2, hf]

/-- Inversion: a successful username block either left the record alone or
wrote exactly the supplied username. -/
theorem usernameStep_ok_cases (upd : UserUpdate) (cu : User) (db : List User)
    (cu1 : User) (h : usernameStep upd cu db = Except.ok cu1) :
    cu1 = cu ∨ ∃ un, upd.username = some un ∧ un ≠ "" ∧ un ≠ cu.username ∧
      db.find? (fun u => u.username == un) = none ∧
      cu1 = { cu with username := un } := by
  unfold usernameStep at h
  cases hun : upd.username with
  | none => rw [hun] at h; dsimp only at h; exact Or.inl (Except.ok.inj h).symm
  | some un =>
    rw [hun] at h; dsimp only at h
    by_cases hc : un ≠ "" ∧ un ≠ cu.username
    · rw [if_pos hc] at h
      cases hf : db.find? (fun u => u.username == un) with
      | none => rw [hf] at h; exact Or.inr ⟨un, rfl, hc.1, hc.2, hf, (Except.ok.inj h).symm⟩
      | some v => rw [hf] at h; exact absurd h (by simp)
    · rw [if_neg hc] at h; exact Or.inl (Except.ok.inj h).symm

/-- A successful username block changes no field but possibly the username. -/
theorem usernameStep_frame (upd : UserUpdate) (cu : User) (db : List User)
    (cu1 : User) (h : usernameStep upd cu db = Except.ok cu1) :
    cu1.id = cu.id ∧ cu1.email = cu.email ∧ cu1.full_name = cu.full_name ∧
    cu1.hashed_password = cu.hashed_password ∧ cu1.role = cu.role ∧
    cu1.is_active = cu.is_active ∧ cu1.is_verified = cu.is_verified := by
  rcases usernameStep_ok_cases upd cu db cu1 h with rfl | ⟨un, _, _, _, _, rfl⟩ <;> simp

/-- The full-name block changes no field but possibly the full name. -/
theorem fullNameStep_frame (upd : UserUpdate) (cu : User) :
    (fullNameStep upd cu).id = cu.id ∧ (fullNameStep upd cu).email = cu.email ∧
    (fullNameStep upd cu).username = cu.username ∧
    (fullNameStep upd cu).hashed_password = cu.hashed_password ∧
    (fullNameStep upd cu).role = cu.role ∧
    (fullNameStep upd cu).is_active = cu.is_active ∧
    (fullNameStep upd cu).is_verified = cu.is_verified := by
  cases h : upd.full_name <;> simp [fullNameStep, h]

/-- Inversion of a successful whole update into its three blocks plus the
final commit. -/
theorem update_ok_inv (upd : UserUpdate) (cu : User) (db : List User)
    (cu2 : User) (db2 : List User)
    (h : update_user_profile upd cu db = Except.ok (cu2, db2)) :
    ∃ cu1 cu1b, emailStep upd cu db = Except.ok cu1 ∧
      usernameStep upd cu1 db = Except.ok cu1b ∧
      cu2 = fullNameStep upd cu1b ∧ db2 = commitUser cu2 db := by
  unfold update_user_profile at h
  cases h1 : emailStep upd cu db with
  | error err => rw [h1] at h; exact absurd h (by simp)
  | ok cu1 =>
    rw [h1] at h; dsimp only at h
    cases h2 : usernameStep upd cu1 db with
    | error err => rw [h2] at h; exact absurd h (by simp)
    | ok cu1b =>
      rw [h2] at h; dsimp only at h
      have hp := Except.ok.inj h
      have hcu : fullNameStep upd cu1b = cu2 := congrArg Prod.fst hp
      have hdb : commitUser (fullNameStep upd cu1b) db = db2 := congrArg Prod.snd hp
      exact ⟨cu1, cu1b, rfl, h2, hcu.symm, by rw [← hdb, hcu]⟩

/-- Re-committing an already committed record is a no-op. -/
theorem commitUser_idem (u : User) (db : List User) :
    commitUser u (commitUser u db) = commitUser u db := by
  unfold commitUser
  induction db with
  | nil => rfl
  | cons v t ih =>
    simp only [List.map_cons, List.map_map] at ih ⊢
    rw [ih]
    congr 1
    by_cases h : (v.id == u.id) = true <;> simp [h, Function.comp]

/-- Each record is counted under exactly one role of the closed enumeration,
so the per-role counts partition the directory. -/
theorem countRole_partition (db : List User) :
    countRole db UserRole.USER + countRole db UserRole.ADMIN = db.length := by
  induction db with
  | nil => rfl
  | cons u t ih =>
    unfold countRole at ih ⊢
    cases h : u.role <;> simp [List.filter_cons, h] at ih ⊢ <;> omega

/-- After a successful email block on a truthy supplied email, the record's
email equals the supplied value (it was either written or already current). -/
theorem emailStep_ok_email (upd : UserUpdate) (cu : User) (db : List User)
    (cu1 : User) (e : String) (he : upd.email = some e) (hne : e ≠ "")
    (h : emailStep upd cu db = Except.ok cu1) : cu1.email = e := by
  unfold emailStep at h
  rw [he] at h; dsimp only at h
  by_cases he2 : e = cu.email
  · rw [if_neg (by simp [he2])] at h
    obtain rfl := Except.ok.inj h
    exact he2.symm
  · rw [if_pos ⟨hne, he2⟩] at h
    cases hf : db.find? (fun u => u.email == e) with
    | some v => rw [hf] at h; exact absurd h (by simp)
    | none =>
      rw [hf] at h
      rw [← Except.ok.inj h]

/-- After a successful username block on a truthy supplied username, the
record's username equals the supplied value. -/
theorem usernameStep_ok_username (upd : UserUpdate) (cu : User) (db : List User)
    (cu1 : User) (un : String) (hu : upd.username = some un) (hne : un ≠ "")
    (h : usernameStep upd cu db = Except.ok cu1) : cu1.username = un := by
  unfold usernameStep at h
  rw [hu] at h; dsimp only at h
  by_cases he2 : un = cu.username
  · rw [if_neg (by simp [he2])] at h
    obtain rfl := Except.ok.inj h
    exact he2.symm
  · rw [if_pos ⟨hne, he2⟩] at h
    cases hf : db.find? (fun u => u.username == un) with
    | some v => rw [hf] at h; exact absurd h (by simp)
    | none =>
      rw [hf] at h
      rw [← Except.ok.inj h]

/-- Two updates whose email blocks both pass the record through unchanged
and that agree on the username and full-name fields run identically. -/
theorem update_congr_email_inert (upd1 upd2 : UserUpdate) (cu : User)
    (db : List User)
    (h1 : emailStep upd1 cu db = Except.ok cu)
    (h2 : emailStep upd2 cu db = Except.ok cu)
    (hun : upd1.username = upd2.username) (hfn : upd1.full_name = upd2.full_name) :
    update_user_profile upd1 cu db = update_user_profile upd2 cu db := by
  have hu : usernameStep upd1 cu db = usernameStep upd2 cu db := by
    unfold usernameStep; rw [hun]
  unfold update_user_profile
  rw [h1, h2]; dsimp only
  rw [hu]
  cases husr : usernameStep upd2 cu db with
  | error err => rfl
  | ok c2 =>
    dsimp only
    unfold fullNameStep; rw [hfn]

/-- Two updates that agree on the email and full-name fields and whose
username blocks both pass the post-email record through unchanged run
identically. -/
theorem update_congr_username_inert (upd1 upd2 : UserUpdate) (cu : User)
    (db : List User) (hem : upd1.email = upd2.email)
    (h12 : ∀ c, emailStep upd1 cu db = Except.ok c →
      usernameStep upd1 c db = Except.ok c ∧ usernameStep upd2 c db = Except.ok c)
    (hfn : upd1.full_name = upd2.full_name) :
    update_user_profile upd1 cu db = update_user_profile upd2 cu db := by
  have he : emailStep upd1 cu db = emailStep upd2 cu db := by
    unfold emailStep; rw [hem]
  unfold update_user_profile
  cases hh : emailStep upd1 cu db with
  | error err =>
    have hh2 : emailStep upd2 cu db = Except.error err := he ▸ hh
    rw [hh2]
  | ok c1 =>
    have hh2 : emailStep upd2 cu db = Except.ok c1 := he ▸ hh
    obtain ⟨hu1, hu2⟩ := h12 c1 hh
    rw [hh2]; dsimp only
    rw [hu1, hu2]; dsimp only
    unfold fullNameStep; rw [hfn]

/-! ## The claims -/

/-- C2: for every required role R and resolved identity u, the guard built by
the role-guard factory returns u unchanged when u.role = R; otherwise it
fails with the typed 403 forbidden error carrying R (its detail names R and
distinguishes distinct roles), and it can never produce a 401
unauthenticated error. -/
theorem require_role_contract (R : UserRole) (u : User) :
    (u.role = R → role_checker R u = Except.ok u) ∧
    (u.role ≠ R → role_checker R u =
      Except.error ⟨403, "Access denied. Required role: " ++ R.value⟩) ∧
    (∀ d : String, role_checker R u ≠ Except.error ⟨401, d⟩) ∧
    (∀ R2 : UserRole, R2 ≠ R →
      ("Access denied. Required role: " ++ R.value : String) ≠
        "Access denied. Required role: " ++ R2.value) := by
  refine ⟨?_, ?_, ?_, ?_⟩
  · intro h; unfold role_checker; rw [if_neg (by simp [h])]
  · intro h; unfold role_checker; rw [if_pos h]
  · intro d h
    unfold role_checker at h
    split at h <;> simp_all
  · intro R2 h2
    cases R <;> cases R2 <;> first | exact absurd rfl h2 | decide

/-- C2 at a concrete input: the admin-role guard passes bob (an admin)
through unchanged and rejects alice (a regular user) with the 403 error
carrying the required role. -/
theorem require_role_contract_case :
    role_checker UserRole.ADMIN bob = Except.ok bob ∧
    role_checker UserRole.ADMIN alice =
      Except.error ⟨403, "Access denied. Required role: admin"⟩ :=
  ⟨(require_role_contract UserRole.ADMIN bob).1 rfl,
   (require_role_contract UserRole.ADMIN alice).2.1 (by decide)⟩

/-- C3 counterexample: on the non-admin identity alice, `require_admin` and
the parameterized guard at role ADMIN both reject with status 403, but the
two failure outcomes are not the same — their carried detail strings
differ — so the admin-only guard does not produce the same failure outcome
as the parameterized guard. -/
theorem require_admin_drift_cex :
    require_admin alice ≠ role_checker UserRole.ADMIN alice ∧
    require_admin alice = Except.error ⟨403, "Access denied. Admin role required."⟩ ∧
    role_checker UserRole.ADMIN alice =
      Except.error ⟨403, "Access denied. Required role: admin"⟩ := by
  refine ⟨?_, rfl, rfl⟩
  intro h
  rw [show require_admin alice =
      Except.error ⟨403, "Access denied. Admin role required."⟩ from rfl,
    show role_checker UserRole.ADMIN alice =
      Except.error ⟨403, "Access denied. Required role: admin"⟩ from rfl] at h
  injection h with h2
  exact absurd h2 (by decide)

/-- C3 (amended): `require_admin` accepts exactly the identities accepted by
the parameterized guard at role ADMIN and rejects exactly the identities it
rejects, in both cases with a 403 forbidden error; but being a separate code
path, its rejection carries a different detail string than the
parameterized guard's. -/
theorem require_admin_amended (u : User) :
    (u.role = UserRole.ADMIN →
      require_admin u = Except.ok u ∧ role_checker UserRole.ADMIN u = Except.ok u) ∧
    (u.role ≠ UserRole.ADMIN →
      require_admin u = Except.error ⟨403, "Access denied. Admin role required."⟩ ∧
      role_checker UserRole.ADMIN u =
        Except.error ⟨403, "Access denied. Required role: admin"⟩) := by
  constructor
  · intro h
    constructor
    · unfold require_admin; rw [if_neg (by simp [h])]
    · unfold role_checker; rw [if_neg (by simp [h])]
  · intro h
    constructor
    · unfold require_admin; rw [if_pos h]
    · unfold role_checker; rw [if_pos h]; rfl

/-- C3 (amended) at a concrete input: agreement of the two guards on bob
(accepted) and alice (rejected with 403, differing details). -/
theorem require_admin_amended_case :
    (require_admin bob = Except.ok bob ∧
      role_checker UserRole.ADMIN bob = Except.ok bob) ∧
    (require_admin alice = Except.error ⟨403, "Access denied. Admin role required."⟩ ∧
      role_checker UserRole.ADMIN alice =
        Except.error ⟨403, "Access denied. Required role: admin"⟩) :=
  ⟨(require_admin_amended bob).1 rfl, (require_admin_amended alice).2 (by decide)⟩

/-- C6: the statistics operation returns its four counts computed over the
directory state; each of the admin, active and verified counts is bounded by
the total, and the per-role counts over the closed enumeration {USER, ADMIN}
sum to the total. -/
theorem admin_stats_contract (db : List User) :
    (get_admin_stats db).total_users = db.length ∧
    (get_admin_stats db).active_users ≤ (get_admin_stats db).total_users ∧
    (get_admin_stats db).verified_users ≤ (get_admin_stats db).total_users ∧
    (get_admin_stats db).admin_users ≤ (get_admin_stats db).total_users ∧
    countRole db UserRole.USER + countRole db UserRole.ADMIN =
      (get_admin_stats db).total_users := by
  refine ⟨rfl, ?_, ?_, ?_, countRole_partition db⟩ <;>
    · simp only [get_admin_stats]
      exact List.length_filter_le _ _

/-- C6 at the spec's example scenario: a directory of one active verified
regular user and one active unverified admin yields total=2, active=2,
verified=1, admin=1. -/
theorem admin_stats_contract_case : get_admin_stats dbAB = ⟨2, 2, 1, 1⟩ := rfl

/-- C8: self-delete unconditionally removes exactly the caller's record (no
confirmation, no precondition), answers 204 with empty content, and leaves
every other record in the directory. -/
theorem delete_account_contract (cu : User) (db : List User) :
    (delete_user_account cu db).1 = 204 ∧
    (delete_user_account cu db).2.1 = none ∧
    ∀ u : User, u ∈ (delete_user_account cu db).2.2 ↔ u ∈ db ∧ u.id ≠ cu.id := by
  refine ⟨rfl, rfl, ?_⟩
  intro u
  simp [delete_user_account, List.mem_filter]

/-- C8 at a concrete input: deleting alice from the two-user directory
answers 204 with no content and leaves exactly bob. -/
theorem delete_account_contract_case :
    delete_user_account alice dbAB = (204, none, [bob]) := rfl

/-- C1: on a self-update that conflicts on username but not on email, the
request fails with the username conflict, and the directory after the
request is unchanged — no field of the caller's record, including the email,
is persisted, because the raised conflict aborts the handler before its
commit. -/
theorem update_atomic_username_conflict (upd : UserUpdate) (cu : User)
    (db : List User) (un : String) (v : User)
    (hun : upd.username = some un) (hne : un ≠ "") (hdiff : un ≠ cu.username)
    (htaken : db.find? (fun u => u.username == un) = some v)
    (hemail : ∀ e, upd.email = some e → e ≠ "" → e ≠ cu.email →
      db.find? (fun u => u.email == e) = none) :
    update_user_profile upd cu db = Except.error ⟨400, "Username already taken"⟩ ∧
    dbAfterUpdateRequest upd cu db = db := by
  have h1 : ∃ cu1, emailStep upd cu db = Except.ok cu1 ∧ cu1.username = cu.username := by
    cases hue : upd.email with
    | none => exact ⟨cu, emailStep_omitted upd cu db hue, rfl⟩
    | some e =>
      by_cases he1 : e = ""
      · exact ⟨cu, emailStep_skip upd cu db e hue (Or.inl he1), rfl⟩
      · by_cases he2 : e = cu.email
        · exact ⟨cu, emailStep_skip upd cu db e hue (Or.inr he2), rfl⟩
        · exact ⟨{ cu with email := e },
            emailStep_applies upd cu db e hue he1 he2 (hemail e hue he1 he2), rfl⟩
  obtain ⟨cu1, hok, huser⟩ := h1
  have h2 : usernameStep upd cu1 db = Except.error ⟨400, "Username already taken"⟩ :=
    usernameStep_conflict upd cu1 db un v hun hne (by rw [huser]; exact hdiff) htaken
  have hmain : update_user_profile upd cu db =
      Except.error ⟨400, "Username already taken"⟩ := by
    unfold update_user_profile
    rw [hok]; dsimp only; rw [h2]
  refine ⟨hmain, ?_⟩
  unfold dbAfterUpdateRequest
  rw [hmain]

/-- The update of the C1 instance: a fresh email together with bob's taken
username. -/
def updConflict : UserUpdate := ⟨some "c@x.com", some "bob", some "New"⟩

/-- C1 at a concrete input: alice submits a fresh email and bob's username;
the request fails on the username and the directory — alice's email
included — is untouched. -/
theorem update_atomic_username_conflict_case :
    update_user_profile updConflict alice dbAB =
      Except.error ⟨400, "Username already taken"⟩ ∧
    dbAfterUpdateRequest updConflict alice dbAB = dbAB :=
  update_atomic_username_conflict updConflict alice dbAB "bob" bob rfl
    (by decide) (by decide) rfl
    (by intro e he h1 h2; injection he with h; subst h; rfl)

/-- C4: on a self-update whose (non-empty) new email differs from the
caller's current one, if some directory record already holds that email the
request fails with the "Email already registered" conflict and the directory
is unchanged, whatever the other fields of the request; if no record holds
it, a successful request applies exactly that email to the caller's
record. -/
theorem update_email_uniqueness (upd : UserUpdate) (cu : User) (db : List User)
    (e : String) (he : upd.email = some e) (hne : e ≠ "") (hdiff : e ≠ cu.email) :
    ((∃ v, db.find? (fun u => u.email == e) = some v) →
      update_user_profile upd cu db = Except.error ⟨400, "Email already registered"⟩ ∧
      dbAfterUpdateRequest upd cu db = db) ∧
    (db.find? (fun u => u.email == e) = none →
      ∀ cu2 db2, update_user_profile upd cu db = Except.ok (cu2, db2) →
        cu2.email = e) := by
  constructor
  · rintro ⟨v, hf⟩
    have h1 := emailStep_conflict upd cu db e v he hne hdiff hf
    have hmain : update_user_profile upd cu db =
        Except.error ⟨400, "Email already registered"⟩ := by
      unfold update_user_profile; rw [h1]
    refine ⟨hmain, ?_⟩
    unfold dbAfterUpdateRequest
    rw [hmain]
  · intro hf cu2 db2 h
    obtain ⟨cu1, cu1b, h1, h2, hcu2, _⟩ := update_ok_inv upd cu db cu2 db2 h
    have he1 : cu1.email = e := emailStep_ok_email upd cu db cu1 e he hne h1
    have he2 : cu1b.email = cu1.email := (usernameStep_frame upd cu1 db cu1b h2).2.1
    have he3 : cu2.email = cu1b.email := by
      rw [hcu2]; exact (fullNameStep_frame upd cu1b).2.1
    rw [he3, he2, he1]

/-- The update of the C4 instance: bob's already-registered email. -/
def updTakenEmail : UserUpdate := ⟨some "b@x.com", none, none⟩

/-- C4 at a concrete input: alice submits bob's email; the request fails
with the email conflict and the directory is unchanged. -/
theorem update_email_uniqueness_case :
    update_user_profile updTakenEmail alice dbAB =
      Except.error ⟨400, "Email already registered"⟩ ∧
    dbAfterUpdateRequest updTakenEmail alice dbAB = dbAB :=
  (update_email_uniqueness updTakenEmail alice dbAB "b@x.com" rfl (by decide)
    (by decide)).1 ⟨bob, rfl⟩

/-- C5 counterexample: a request whose full_name is explicitly null parses
to the very same update as a request that omits full_name, and running it
leaves alice's full name at "Old Name" rather than applying the provided
null — explicit clearing to null is neither applied nor distinguishable from
omission. -/
theorem full_name_null_cex :
    parseUpdate ⟨none, none, some none⟩ = parseUpdate ⟨none, none, none⟩ ∧
    update_user_profile (parseUpdate ⟨none, none, some none⟩) alice dbAB =
      Except.ok (alice, dbAB) ∧
    alice.full_name = some "Old Name" := ⟨rfl, rfl, rfl⟩

/-- C5 (amended): a full_name provided with a non-null value — the empty
string included — is applied to the caller's record with no uniqueness
check (the full-name field never affects whether the update succeeds); an
update whose parsed full_name is null, whether the field was omitted or
explicitly null, leaves the full name untouched. -/
theorem full_name_applied (upd : UserUpdate) (cu : User) (db : List User)
    (cu2 : User) (db2 : List User)
    (h : update_user_profile upd cu db = Except.ok (cu2, db2)) :
    (∀ fn, upd.full_name = some fn → cu2.full_name = some fn) ∧
    (upd.full_name = none → cu2.full_name = cu.full_name) ∧
    (∀ v, (update_user_profile { upd with full_name := v } cu db).isOk =
      (update_user_profile upd cu db).isOk) := by
  obtain ⟨cu1, cu1b, h1, h2, hcu2, _⟩ := update_ok_inv upd cu db cu2 db2 h
  refine ⟨?_, ?_, ?_⟩
  · intro fn hfn
    rw [hcu2]; unfold fullNameStep; rw [hfn]
  · intro hfn
    rw [hcu2]
    have : fullNameStep upd cu1b = cu1b := by unfold fullNameStep; rw [hfn]
    rw [this]
    exact (usernameStep_frame upd cu1 db cu1b h2).2.2.1.trans
      (emailStep_frame upd cu db cu1 h1).2.2.1
  · intro v
    have e1 : emailStep { upd with full_name := v } cu db = emailStep upd cu db := rfl
    have e2 : usernameStep { upd with full_name := v } cu1 db =
        usernameStep upd cu1 db := rfl
    unfold update_user_profile
    rw [e1, h1]; dsimp only
    rw [e2, h2]; rfl

/-- The update of the C9 and C5 instances: only a new full name. -/
def updNameOnly : UserUpdate := ⟨none, none, some "N"⟩

/-- Alice after applying `updNameOnly`. -/
def aliceNamed : User := ⟨1, "a@x.com", "alice", some "N", some "pw", .USER, true, true⟩

/-- C5 (amended) at a concrete input: a provided full name is applied, an
omitted one is kept, and the full-name field never changes the outcome. -/
theorem full_name_applied_case :
    (∀ fn, updNameOnly.full_name = some fn → aliceNamed.full_name = some fn) ∧
    (updNameOnly.full_name = none → aliceNamed.full_name = alice.full_name) ∧
    (∀ v, (update_user_profile { updNameOnly with full_name := v } alice dbAB).isOk =
      (update_user_profile updNameOnly alice dbAB).isOk) :=
  full_name_applied updNameOnly alice dbAB aliceNamed [aliceNamed, bob] rfl

/-- C7: self-update is idempotent — if a request succeeds, re-submitting the
identical request against the resulting identity and directory succeeds and
returns the very same record and directory. -/
theorem update_idempotent (upd : UserUpdate) (cu : User) (db : List User)
    (cu2 : User) (db2 : List User)
    (h : update_user_profile upd cu db = Except.ok (cu2, db2)) :
    update_user_profile upd cu2 db2 = Except.ok (cu2, db2) := by
  obtain ⟨cu1, cu1b, h1, h2, hcu2, hdb2⟩ := update_ok_inv upd cu db cu2 db2 h
  have hemail2 : emailStep upd cu2 db2 = Except.ok cu2 := by
    cases hue : upd.email with
    | none => exact emailStep_omitted upd cu2 db2 hue
    | some e =>
      by_cases he1 : e = ""
      · exact emailStep_skip upd cu2 db2 e hue (Or.inl he1)
      · apply emailStep_skip upd cu2 db2 e hue
        right
        have hx1 : cu1.email = e := emailStep_ok_email upd cu db cu1 e hue he1 h1
        have hx2 : cu1b.email = cu1.email := (usernameStep_frame upd cu1 db cu1b h2).2.1
        have hx3 : cu2.email = cu1b.email := by
          rw [hcu2]; exact (fullNameStep_frame upd cu1b).2.1
        exact (hx3.trans (hx2.trans hx1)).symm
  have husername2 : usernameStep upd cu2 db2 = Except.ok cu2 := by
    cases hun : upd.username with
    | none => exact usernameStep_omitted upd cu2 db2 hun
    | some un =>
      by_cases hn1 : un = ""
      · exact usernameStep_skip upd cu2 db2 un hun (Or.inl hn1)
      · apply usernameStep_skip upd cu2 db2 un hun
        right
        have hx1 : cu1b.username = un :=
          usernameStep_ok_username upd cu1 db cu1b un hun hn1 h2
        have hx2 : cu2.username = cu1b.username := by
          rw [hcu2]; exact (fullNameStep_frame upd cu1b).2.2.1
        exact (hx2.trans hx1).symm
  have hfull : fullNameStep upd cu2 = cu2 := by
    cases hfn : upd.full_name with
    | none => unfold fullNameStep; rw [hfn]
    | some fn =>
      have hv : cu2.full_name = some fn := by
        rw [hcu2]; unfold fullNameStep; rw [hfn]
      unfold fullNameStep; rw [hfn]; dsimp only
      rw [← hv]
  unfold update_user_profile
  rw [hemail2]; dsimp only
  rw [husername2]; dsimp only
  rw [hfull, hdb2, commitUser_idem]

/-- The update of the C7 instance: fresh email, fresh username, new full
name. -/
def updFresh : UserUpdate := ⟨some "c@x.com", some "carol", some "New"⟩

/-- C7 at a concrete input: re-submitting the successful update against the
updated identity and directory returns the same record and directory. -/
theorem update_idempotent_case :
    update_user_profile updFresh aliceUpdated dbUpdated =
      Except.ok (aliceUpdated, dbUpdated) :=
  update_idempotent updFresh alice dbAB aliceUpdated dbUpdated rfl

/-- C9: a successful self-update never changes id, role, is_active,
is_verified or hashed_password, and any of email, username, full_name that
the request omits is left untouched. -/
theorem update_untouched_fields (upd : UserUpdate) (cu : User) (db : List User)
    (cu2 : User) (db2 : List User)
    (h : update_user_profile upd cu db = Except.ok (cu2, db2)) :
    cu2.id = cu.id ∧ cu2.role = cu.role ∧ cu2.is_active = cu.is_active ∧
    cu2.is_verified = cu.is_verified ∧ cu2.hashed_password = cu.hashed_password ∧
    (upd.email = none → cu2.email = cu.email) ∧
    (upd.username = none → cu2.username = cu.username) ∧
    (upd.full_name = none → cu2.full_name = cu.full_name) := by
  obtain ⟨cu1, cu1b, h1, h2, hcu2, _⟩ := update_ok_inv upd cu db cu2 db2 h
  obtain ⟨e_id, e_un, e_fn, e_hp, e_rl, e_ac, e_vf⟩ := emailStep_frame upd cu db cu1 h1
  obtain ⟨u_id, u_em, u_fn, u_hp, u_rl, u_ac, u_vf⟩ :=
    usernameStep_frame upd cu1 db cu1b h2
  have hf := fullNameStep_frame upd cu1b
  obtain ⟨n_id, n_em, n_un, n_hp, n_rl, n_ac, n_vf⟩ := hf
  subst hcu2
  refine ⟨n_id.trans (u_id.trans e_id), n_rl.trans (u_rl.trans e_rl),
    n_ac.trans (u_ac.trans e_ac), n_vf.trans (u_vf.trans e_vf),
    n_hp.trans (u_hp.trans e_hp), ?_, ?_, ?_⟩
  · intro hem
    have hc : cu1 = cu := by
      have t := emailStep_omitted upd cu db hem
      rw [h1] at t
      exact Except.ok.inj t
    rw [n_em, u_em, hc]
  · intro hun
    have hc : cu1b = cu1 := by
      have t := usernameStep_omitted upd cu1 db hun
      rw [h2] at t
      exact Except.ok.inj t
    rw [n_un, hc, e_un]
  · intro hfn
    have hc : fullNameStep upd cu1b = cu1b := by unfold fullNameStep; rw [hfn]
    rw [hc, u_fn, e_fn]

/-- C9 at a concrete input: a full-name-only update of alice leaves id,
role, flags, password hash, email and username unchanged. -/
theorem update_untouched_fields_case :
    aliceNamed.id = alice.id ∧ aliceNamed.role = alice.role ∧
    aliceNamed.is_active = alice.is_active ∧
    aliceNamed.is_verified = alice.is_verified ∧
    aliceNamed.hashed_password = alice.hashed_password ∧
    (updNameOnly.email = none → aliceNamed.email = alice.email) ∧
    (updNameOnly.username = none → aliceNamed.username = alice.username) ∧
    (updNameOnly.full_name = none → aliceNamed.full_name = alice.full_name) :=
  update_untouched_fields updNameOnly alice dbAB aliceNamed [aliceNamed, bob] rfl

/-- C10: the email and username blocks run their check-and-write only for a
non-empty value that differs from the caller's current one — an update
carrying an empty-string email or username behaves exactly like one that
omits the field, and an update re-submitting the caller's own current email
or username also behaves exactly like one that omits the field (so it never
raises a conflict, whatever the directory holds). -/
theorem update_truthiness (upd : UserUpdate) (cu : User) (db : List User) :
    update_user_profile { upd with email := some "" } cu db =
      update_user_profile { upd with email := none } cu db ∧
    update_user_profile { upd with username := some "" } cu db =
      update_user_profile { upd with username := none } cu db ∧
    update_user_profile { upd with email := some cu.email } cu db =
      update_user_profile { upd with email := none } cu db ∧
    update_user_profile { upd with username := some cu.username } cu db =
      update_user_profile { upd with username := none } cu db := by
  refine ⟨?_, ?_, ?_, ?_⟩
  · exact update_congr_email_inert _ _ cu db
      (emailStep_skip _ cu db "" rfl (Or.inl rfl))
      (emailStep_omitted _ cu db rfl) rfl rfl
  · refine update_congr_username_inert _ _ cu db rfl ?_ rfl
    intro c hc
    exact ⟨usernameStep_skip _ c db "" rfl (Or.inl rfl),
      usernameStep_omitted _ c db rfl⟩
  · exact update_congr_email_inert _ _ cu db
      (emailStep_skip _ cu db cu.email rfl (Or.inr rfl))
      (emailStep_omitted _ cu db rfl) rfl rfl
  · refine update_congr_username_inert _ _ cu db rfl ?_ rfl
    intro c hc
    have hcuser : c.username = cu.username := by
      rcases emailStep_ok_cases _ cu db c hc with rfl | ⟨e, _, _, _, _, rfl⟩ <;> simp
    exact ⟨usernameStep_skip _ c db cu.username rfl (Or.inr hcuser.symm),
      usernameStep_omitted _ c db rfl⟩

/-- C10 at a concrete input: on alice, empty-string and own-current email and
username updates run exactly like the all-omitted update — no conflict even
though alice's own email and username are present in the directory. -/
theorem update_truthiness_case :
    update_user_profile ⟨some "", some "", none⟩ alice dbAB =
      update_user_profile ⟨none, none, none⟩ alice dbAB ∧
    update_user_profile ⟨some "a@x.com", some "alice", none⟩ alice dbAB =
      update_user_profile ⟨none, none, none⟩ alice dbAB := ⟨rfl, rfl⟩

end FinityAuth
